import Mathlib

/-!
A shallow embedding of the mesh-accumulation and GLB-packing pipeline of
`src/native/iv2glb.cpp` (the coin3d-worker repository), together with
theorems settling the specification's claims about it.

Numeric model: the C++ code computes with `float`/`double`; here every
coordinate is an exact rational (`ℚ`).  The `float` infinities used to
initialise the bounding box are modelled with `WithTop ℚ` (for the min
corner, initialised to `+∞ = ⊤`) and `WithBot ℚ` (for the max corner,
initialised to `-∞ = ⊥`).  `size_t`/`uint32_t` values are `Nat`, with the
`static_cast<uint32_t>` truncation written explicitly as `% 2 ^ 32`.
The byte contents of the packed GLB buffer are modelled symbolically: a
32-bit float or uint32 contributes four tagged byte cells, so byte offsets
and lengths are exact while the bit-level float encoding stays abstract.
-/

/-- A 3D point (the embedding of Coin3D's `SbVec3f`, with exact
rational coordinates in place of `float`). -/
structure Vec3 where
  x : ℚ
  y : ℚ
  z : ℚ
deriving DecidableEq, Repr

/-- A 4x4 transform matrix (the embedding of Coin3D's `SbMatrix`),
row-major: `mIJ` is row `I`, column `J`. -/
structure Mat4 where
  m00 : ℚ
  m01 : ℚ
  m02 : ℚ
  m03 : ℚ
  m10 : ℚ
  m11 : ℚ
  m12 : ℚ
  m13 : ℚ
  m20 : ℚ
  m21 : ℚ
  m22 : ℚ
  m23 : ℚ
  m30 : ℚ
  m31 : ℚ
  m32 : ℚ
  m33 : ℚ
deriving DecidableEq, Repr

/-- `SbMatrix::multVecMatrix`: the homogeneous point transform
`dst = [src 1] * M`, dividing the result by its fourth component
(Coin3D's row-vector convention).  In `ℚ`, division by a zero fourth
component yields `0`, totalising the partial C++ operation. -/
def multVecMatrix (m : Mat4) (src : Vec3) : Vec3 :=
  let w := src.x * m.m03 + src.y * m.m13 + src.z * m.m23 + m.m33
  { x := (src.x * m.m00 + src.y * m.m10 + src.z * m.m20 + m.m30) / w
    y := (src.x * m.m01 + src.y * m.m11 + src.z * m.m21 + m.m31) / w
    z := (src.x * m.m02 + src.y * m.m12 + src.z * m.m22 + m.m32) / w }

/-- The `SoUnits::Units` enumeration of Coin3D (all fourteen members, in
declaration order). -/
inductive SoUnits where
  | METERS
  | CENTIMETERS
  | MILLIMETERS
  | MICROMETERS
  | MICRONS
  | NANOMETERS
  | ANGSTROMS
  | KILOMETERS
  | FEET
  | INCHES
  | POINTS
  | YARDS
  | MILES
  | NAUTICAL_MILES
deriving DecidableEq, Repr

/-- `unitsScaleToMeters` of `iv2glb.cpp:46-60`: the fixed unit-to-meter
table; every unit outside the eight explicit cases falls to the
`default: return 1.0` branch. -/
def unitsScaleToMeters : SoUnits → ℚ
  | SoUnits.MILLIMETERS => 0.001
  | SoUnits.CENTIMETERS => 0.01
  | SoUnits.METERS => 1.0
  | SoUnits.KILOMETERS => 1000.0
  | SoUnits.INCHES => 0.0254
  | SoUnits.FEET => 0.3048
  | SoUnits.YARDS => 0.9144
  | SoUnits.MILES => 1609.344
  | _ => 1.0

/-- The `MeshOut` accumulator of `iv2glb.cpp:26-35`: a flat xyz float
list, a uint32 index list, and the running bounding box, whose min corner
starts at `+∞` (`⊤`) and max corner at `-∞` (`⊥`) exactly as the C++
initialisers do. -/
structure MeshOut where
  positions : List ℚ
  indices : List Nat
  posMin : WithTop ℚ × WithTop ℚ × WithTop ℚ
  posMax : WithBot ℚ × WithBot ℚ × WithBot ℚ

/-- The initial `MeshOut` value (the C++ default member initialisers). -/
def initMesh : MeshOut :=
  { positions := []
    indices := []
    posMin := (⊤, ⊤, ⊤)
    posMax := (⊥, ⊥, ⊥) }

/-- One `if (x < min) min = x;` component update of `updateMinMax`. -/
def updMin (mn : WithTop ℚ) (x : ℚ) : WithTop ℚ :=
  if (x : WithTop ℚ) < mn then (x : WithTop ℚ) else mn

/-- One `if (x > max) max = x;` component update of `updateMinMax`. -/
def updMax (mx : WithBot ℚ) (x : ℚ) : WithBot ℚ :=
  if mx < (x : WithBot ℚ) then (x : WithBot ℚ) else mx

/-- `updateMinMax` of `iv2glb.cpp:37-44`: tighten the six bound
components against the new point `(x, y, z)`. -/
def updateMinMax (m : MeshOut) (x y z : ℚ) : MeshOut :=
  { m with
    posMin := (updMin m.posMin.1 x, updMin m.posMin.2.1 y, updMin m.posMin.2.2 z)
    posMax := (updMax m.posMax.1 x, updMax m.posMax.2.1 y, updMax m.posMax.2.2 z) }

/-- The world-space, unit-scaled image of a local point: transform by the
model matrix, then multiply every coordinate by the unit scale (the value
the `pushVertex` lambda of `triangleCB` stores). -/
def worldPoint (model : Mat4) (u : SoUnits) (v : Vec3) : Vec3 :=
  let wp := multVecMatrix model v
  let scale := unitsScaleToMeters u
  { x := wp.x * scale, y := wp.y * scale, z := wp.z * scale }

/-- The `pushVertex` lambda of `triangleCB` (`iv2glb.cpp:76-91`):
transform, scale, record the index `static_cast<uint32_t>(positions.size() / 3)`
taken before the append, push the three coordinates, update the bounds. -/
def pushVertex (model : Mat4) (u : SoUnits) (m : MeshOut) (v : Vec3) : MeshOut × Nat :=
  let p := worldPoint model u v
  let idx := (m.positions.length / 3) % 2 ^ 32
  (updateMinMax { m with positions := m.positions ++ [p.x, p.y, p.z] } p.x p.y p.z, idx)

/-- `triangleCB` of `iv2glb.cpp:63-100`: push the three vertices in the
order v1, v2, v3, then append their three indices, in that same order, to
the index buffer.  The model matrix and active units are the per-traversal
state the `SoCallbackAction` collaborator supplies. -/
def triangleCB (m : MeshOut) (model : Mat4) (u : SoUnits) (v1 v2 v3 : Vec3) : MeshOut :=
  let r1 := pushVertex model u m v1
  let r2 := pushVertex model u r1.1 v2
  let r3 := pushVertex model u r2.1 v3
  { r3.1 with indices := r3.1.indices ++ [r1.2, r2.2, r3.2] }

/-- The number of stored vertices: `positions.size() / 3`. -/
def vertexCount (m : MeshOut) : Nat :=
  m.positions.length / 3

/-- One triangle of the traversal stream: the three local points together
with the model matrix and active units of the traversal state at the
moment the callback fires. -/
structure Triangle where
  model : Mat4
  units : SoUnits
  v1 : Vec3
  v2 : Vec3
  v3 : Vec3
deriving DecidableEq

/-- Feed a whole traversal stream of triangles to the accumulator, in
order. -/
def runTriangles (ts : List Triangle) (m : MeshOut) : MeshOut :=
  ts.foldl (fun acc t => triangleCB acc t.model t.units t.v1 t.v2 t.v3) m

/-- The identity `SbMatrix`. -/
def idMat : Mat4 :=
  ⟨1, 0, 0, 0, 0, 1, 0, 0, 0, 0, 1, 0, 0, 0, 0, 1⟩

/-- The spec's scenario triangle: local points (0,0,0), (1,0,0), (0,1,0),
identity transform, meters (scale 1.0). -/
def demoTri : Triangle :=
  ⟨idMat, SoUnits.METERS, ⟨0, 0, 0⟩, ⟨1, 0, 0⟩, ⟨0, 1, 0⟩⟩

/-! ## The GLB container model (`writeGLB`, `iv2glb.cpp:102-216`)

The raw data region is modelled as a list of tagged byte cells: each
float32 position coordinate and each uint32 index contributes exactly its
four bytes, so offsets and lengths are bit-exact while the IEEE-754
encoding itself stays symbolic. -/

/-- One byte of the packed binary buffer: byte `k` of the little-endian
float32 encoding of a position coordinate, or byte `k` of the
little-endian uint32 encoding of an index. -/
inductive GlbByte where
  | posByte (value : ℚ) (k : Fin 4)
  | idxByte (value : Nat) (k : Fin 4)
deriving DecidableEq, Repr

/-- The four bytes of one float32 position coordinate. -/
def float32Bytes (q : ℚ) : List GlbByte :=
  [GlbByte.posByte q 0, GlbByte.posByte q 1, GlbByte.posByte q 2, GlbByte.posByte q 3]

/-- The four bytes of one uint32 index. -/
def uint32Bytes (n : Nat) : List GlbByte :=
  [GlbByte.idxByte n 0, GlbByte.idxByte n 1, GlbByte.idxByte n 2, GlbByte.idxByte n 3]

/-- `tinygltf::Buffer`: the raw data region. -/
structure GlbBuffer where
  data : List GlbByte
deriving DecidableEq

/-- `tinygltf::BufferView`: a byte range into a buffer, tagged with a
usage target. -/
structure BufferView where
  buffer : Nat
  byteOffset : Nat
  byteLength : Nat
  target : Nat
deriving DecidableEq, Repr

/-- `tinygltf::Accessor`: a typed, counted view into a buffer view.
`accType` is the element type tag (`TINYGLTF_TYPE_*`); the declared
min/max carry the accumulator's bound types. -/
structure Accessor where
  bufferView : Nat
  byteOffset : Nat
  componentType : Nat
  count : Nat
  accType : Nat
  minValues : List (WithTop ℚ)
  maxValues : List (WithBot ℚ)
deriving DecidableEq

/-- `tinygltf::Material` restricted to the fields the program sets. -/
structure GlbMaterial where
  baseColorFactor : List ℚ
  metallicFactor : ℚ
  roughnessFactor : ℚ
deriving DecidableEq, Repr

/-- `tinygltf::Primitive` restricted to the fields the program sets:
the one POSITION attribute, the index accessor, material and mode. -/
structure GlbPrimitive where
  positionAttr : Nat
  indices : Nat
  material : Nat
  mode : Nat
deriving DecidableEq, Repr

/-- `tinygltf::Mesh`. -/
structure GlbMesh where
  primitives : List GlbPrimitive
deriving DecidableEq, Repr

/-- `tinygltf::Node` restricted to the one field the program sets. -/
structure GlbNode where
  mesh : Nat
deriving DecidableEq, Repr

/-- `tinygltf::Scene` restricted to the one field the program sets. -/
structure GlbScene where
  nodes : List Nat
deriving DecidableEq, Repr

/-- `tinygltf::Model`: the container document `writeGLB` assembles. -/
structure GlbModel where
  buffers : List GlbBuffer
  bufferViews : List BufferView
  accessors : List Accessor
  materials : List GlbMaterial
  meshes : List GlbMesh
  nodes : List GlbNode
  scenes : List GlbScene
  defaultScene : Nat
  assetVersion : String
  assetGenerator : String
deriving DecidableEq

/-- `TINYGLTF_TARGET_ARRAY_BUFFER` (GL enum 34962): vertex-attribute data. -/
def TINYGLTF_TARGET_ARRAY_BUFFER : Nat := 34962

/-- `TINYGLTF_TARGET_ELEMENT_ARRAY_BUFFER` (GL enum 34963): index data. -/
def TINYGLTF_TARGET_ELEMENT_ARRAY_BUFFER : Nat := 34963

/-- `TINYGLTF_COMPONENT_TYPE_FLOAT` (GL enum 5126). -/
def TINYGLTF_COMPONENT_TYPE_FLOAT : Nat := 5126

/-- `TINYGLTF_COMPONENT_TYPE_UNSIGNED_INT` (GL enum 5125). -/
def TINYGLTF_COMPONENT_TYPE_UNSIGNED_INT : Nat := 5125

/-- `TINYGLTF_TYPE_VEC3`. -/
def TINYGLTF_TYPE_VEC3 : Nat := 3

/-- `TINYGLTF_TYPE_SCALAR`. -/
def TINYGLTF_TYPE_SCALAR : Nat := 65

/-- `TINYGLTF_MODE_TRIANGLES` (GL enum 4). -/
def TINYGLTF_MODE_TRIANGLES : Nat := 4

/-- `posBytes` of `iv2glb.cpp:113`: `mesh.positions.size() * sizeof(float)`. -/
def posBytesLen (m : MeshOut) : Nat :=
  m.positions.length * 4

/-- `idxBytes` of `iv2glb.cpp:114`: `mesh.indices.size() * sizeof(uint32_t)`. -/
def idxBytesLen (m : MeshOut) : Nat :=
  m.indices.length * 4

/-- The position bytes `memcpy`'d to offset 0 of the buffer. -/
def posRegion (m : MeshOut) : List GlbByte :=
  m.positions.flatMap float32Bytes

/-- The index bytes `memcpy`'d immediately after the position bytes. -/
def idxRegion (m : MeshOut) : List GlbByte :=
  m.indices.flatMap uint32Bytes

/-- The position buffer view `bvPos`: offset 0, length `posBytes`,
vertex-attribute target. -/
def bvPos (m : MeshOut) : BufferView :=
  { buffer := 0
    byteOffset := 0
    byteLength := posBytesLen m
    target := TINYGLTF_TARGET_ARRAY_BUFFER }

/-- The index buffer view `bvIdx`: offset `posBytes`, length `idxBytes`,
element/index target. -/
def bvIdx (m : MeshOut) : BufferView :=
  { buffer := 0
    byteOffset := posBytesLen m
    byteLength := idxBytesLen m
    target := TINYGLTF_TARGET_ELEMENT_ARRAY_BUFFER }

/-- The position accessor `accPos`: float VEC3, count
`mesh.positions.size() / 3`, declared min/max copied from the
accumulated bounding box. -/
def accPos (m : MeshOut) : Accessor :=
  { bufferView := 0
    byteOffset := 0
    componentType := TINYGLTF_COMPONENT_TYPE_FLOAT
    count := m.positions.length / 3
    accType := TINYGLTF_TYPE_VEC3
    minValues := [m.posMin.1, m.posMin.2.1, m.posMin.2.2]
    maxValues := [m.posMax.1, m.posMax.2.1, m.posMax.2.2] }

/-- The index accessor `accIdx`: unsigned-int SCALAR, count
`mesh.indices.size()`, no declared min/max. -/
def accIdx (m : MeshOut) : Accessor :=
  { bufferView := 1
    byteOffset := 0
    componentType := TINYGLTF_COMPONENT_TYPE_UNSIGNED_INT
    count := m.indices.length
    accType := TINYGLTF_TYPE_SCALAR
    minValues := []
    maxValues := [] }

/-- The placeholder grey material of `iv2glb.cpp:167-171`. -/
def defaultMaterial : GlbMaterial :=
  { baseColorFactor := [0.8, 0.8, 0.8, 1.0]
    metallicFactor := 0.0
    roughnessFactor := 1.0 }

/-- The document `writeGLB` builds once the emptiness check has passed
(`iv2glb.cpp:108-201`): one buffer holding the position bytes immediately
followed by the index bytes, the two buffer views, the two accessors, the
placeholder material, one mesh with one triangle-list primitive, one node,
one scene marked default. -/
def packGLB (m : MeshOut) : GlbModel :=
  { buffers := [{ data := posRegion m ++ idxRegion m }]
    bufferViews := [bvPos m, bvIdx m]
    accessors := [accPos m, accIdx m]
    materials := [defaultMaterial]
    meshes := [{ primitives := [{ positionAttr := 0, indices := 1, material := 0,
                                  mode := TINYGLTF_MODE_TRIANGLES }] }]
    nodes := [{ mesh := 0 }]
    scenes := [{ nodes := [0] }]
    defaultScene := 0
    assetVersion := "2.0"
    assetGenerator := "coin3d-iv2glb-mvp" }

/-- The error message of the emptiness check (`iv2glb.cpp:104`). -/
def errNoTriangles : String :=
  "No triangles extracted from scene graph."

/-- The error message of a failed serialiser write (`iv2glb.cpp:213`). -/
def errWriteFailed : String :=
  "tinygltf failed to write GLB."

/-- The pure part of `writeGLB` (`iv2glb.cpp:102-216`): the emptiness
check — the only validation performed before packing — followed by the
document construction.  The subsequent `WriteGltfSceneToFile` disk write
is external I/O, modelled separately by `writeGLBDisk`. -/
def writeGLB (m : MeshOut) : Except String GlbModel :=
  if m.positions.isEmpty || m.indices.isEmpty then
    Except.error errNoTriangles
  else
    Except.ok (packGLB m)

/-- `writeGLB` including the final `WriteGltfSceneToFile` call, whose
success is the external boolean `ioOk` (filesystem behaviour is outside
the embedding). -/
def writeGLBDisk (m : MeshOut) (ioOk : Bool) : Except String GlbModel :=
  match writeGLB m with
  | Except.error e => Except.error e
  | Except.ok doc => if ioOk then Except.ok doc else Except.error errWriteFailed

/-- The success line `main` prints (`iv2glb.cpp:257-258`): output path and
triangle count `mesh.indices.size() / 3`. -/
def successLine (outPath : String) (m : MeshOut) : String :=
  "OK: wrote " ++ outPath ++ " (" ++ toString (m.indices.length / 3) ++ " triangles)\n"

/-- `main` of `iv2glb.cpp:219-260` as a function of its external
environment: the argument count `argc`, whether `SoInput::openFile`
succeeds, whether `SoDB::readAll` returns a root, the mesh the traversal
accumulates, and whether the serialiser's disk write succeeds.  The
result is the process exit code together with the stdout success line,
when one is printed. -/
def mainRun (argc : Nat) (outPath : String) (openOk readOk : Bool) (m : MeshOut)
    (ioOk : Bool) : Nat × Option String :=
  if argc < 3 then (2, none)
  else if !openOk then (3, none)
  else if !readOk then (4, none)
  else
    match writeGLBDisk m ioOk with
    | Except.error _ => (5, none)
    | Except.ok _ => (0, some (successLine outPath m))

/-! ## Helper lemmas: what one callback invocation does -/

theorem pushVertex_positions (model : Mat4) (u : SoUnits) (m : MeshOut) (v : Vec3) :
    (pushVertex model u m v).1.positions =
      m.positions ++ [(worldPoint model u v).x, (worldPoint model u v).y, (worldPoint model u v).z] :=
  rfl

theorem pushVertex_indices (model : Mat4) (u : SoUnits) (m : MeshOut) (v : Vec3) :
    (pushVertex model u m v).1.indices = m.indices :=
  rfl

theorem pushVertex_idx (model : Mat4) (u : SoUnits) (m : MeshOut) (v : Vec3) :
    (pushVertex model u m v).2 = m.positions.length / 3 % 2 ^ 32 :=
  rfl

theorem pushVertex_posMin (model : Mat4) (u : SoUnits) (m : MeshOut) (v : Vec3) :
    (pushVertex model u m v).1.posMin =
      (updMin m.posMin.1 (worldPoint model u v).x,
       updMin m.posMin.2.1 (worldPoint model u v).y,
       updMin m.posMin.2.2 (worldPoint model u v).z) :=
  rfl

theorem pushVertex_posMax (model : Mat4) (u : SoUnits) (m : MeshOut) (v : Vec3) :
    (pushVertex model u m v).1.posMax =
      (updMax m.posMax.1 (worldPoint model u v).x,
       updMax m.posMax.2.1 (worldPoint model u v).y,
       updMax m.posMax.2.2 (worldPoint model u v).z) :=
  rfl

theorem pushVertex_positions_length (model : Mat4) (u : SoUnits) (m : MeshOut) (v : Vec3) :
    (pushVertex model u m v).1.positions.length = m.positions.length + 3 := by
  simp [pushVertex_positions]

theorem triangleCB_positions (m : MeshOut) (model : Mat4) (u : SoUnits) (v1 v2 v3 : Vec3) :
    (triangleCB m model u v1 v2 v3).positions =
      m.positions ++
        [(worldPoint model u v1).x, (worldPoint model u v1).y, (worldPoint model u v1).z,
         (worldPoint model u v2).x, (worldPoint model u v2).y, (worldPoint model u v2).z,
         (worldPoint model u v3).x, (worldPoint model u v3).y, (worldPoint model u v3).z] := by
  simp [triangleCB, pushVertex_positions, List.append_assoc]

theorem triangleCB_positions_length (m : MeshOut) (model : Mat4) (u : SoUnits) (v1 v2 v3 : Vec3) :
    (triangleCB m model u v1 v2 v3).positions.length = m.positions.length + 9 := by
  simp [triangleCB_positions]

theorem triangleCB_vertexCount (m : MeshOut) (model : Mat4) (u : SoUnits) (v1 v2 v3 : Vec3) :
    vertexCount (triangleCB m model u v1 v2 v3) = vertexCount m + 3 := by
  simp only [vertexCount, triangleCB_positions_length]
  omega

theorem triangleCB_indices (m : MeshOut) (model : Mat4) (u : SoUnits) (v1 v2 v3 : Vec3) :
    (triangleCB m model u v1 v2 v3).indices =
      m.indices ++ [vertexCount m % 2 ^ 32, (vertexCount m + 1) % 2 ^ 32,
                    (vertexCount m + 2) % 2 ^ 32] := by
  have h1 : (m.positions.length + 3) / 3 = m.positions.length / 3 + 1 :=
    Nat.add_div_right _ (by norm_num)
  have h2 : (m.positions.length + 3 + 3) / 3 = m.positions.length / 3 + 2 := by
    rw [Nat.add_div_right _ (by norm_num), h1]
  simp [triangleCB, pushVertex_indices, pushVertex_idx, pushVertex_positions_length,
    vertexCount, h1, h2]

theorem triangleCB_posMin (m : MeshOut) (model : Mat4) (u : SoUnits) (v1 v2 v3 : Vec3) :
    (triangleCB m model u v1 v2 v3).posMin =
      (updMin (updMin (updMin m.posMin.1 (worldPoint model u v1).x) (worldPoint model u v2).x)
         (worldPoint model u v3).x,
       updMin (updMin (updMin m.posMin.2.1 (worldPoint model u v1).y) (worldPoint model u v2).y)
         (worldPoint model u v3).y,
       updMin (updMin (updMin m.posMin.2.2 (worldPoint model u v1).z) (worldPoint model u v2).z)
         (worldPoint model u v3).z) := by
  simp [triangleCB, pushVertex_posMin]

theorem triangleCB_posMax (m : MeshOut) (model : Mat4) (u : SoUnits) (v1 v2 v3 : Vec3) :
    (triangleCB m model u v1 v2 v3).posMax =
      (updMax (updMax (updMax m.posMax.1 (worldPoint model u v1).x) (worldPoint model u v2).x)
         (worldPoint model u v3).x,
       updMax (updMax (updMax m.posMax.2.1 (worldPoint model u v1).y) (worldPoint model u v2).y)
         (worldPoint model u v3).y,
       updMax (updMax (updMax m.posMax.2.2 (worldPoint model u v1).z) (worldPoint model u v2).z)
         (worldPoint model u v3).z) := by
  simp [triangleCB, pushVertex_posMax]

/-! ## Helper lemmas: whole traversal streams -/

theorem runTriangles_nil (m : MeshOut) : runTriangles [] m = m :=
  rfl

theorem runTriangles_cons (t : Triangle) (ts : List Triangle) (m : MeshOut) :
    runTriangles (t :: ts) m =
      runTriangles ts (triangleCB m t.model t.units t.v1 t.v2 t.v3) :=
  rfl

theorem runTriangles_positions_length :
    ∀ (ts : List Triangle) (m : MeshOut),
      (runTriangles ts m).positions.length = m.positions.length + 9 * ts.length := by
  intro ts
  induction ts with
  | nil => intro m; simp [runTriangles_nil]
  | cons t ts ih =>
    intro m
    rw [runTriangles_cons, ih, triangleCB_positions_length]
    simp [List.length_cons]
    ring

theorem runTriangles_vertexCount :
    ∀ (ts : List Triangle) (m : MeshOut),
      vertexCount (runTriangles ts m) = vertexCount m + 3 * ts.length := by
  intro ts
  induction ts with
  | nil => intro m; simp [runTriangles_nil]
  | cons t ts ih =>
    intro m
    rw [runTriangles_cons, ih, triangleCB_vertexCount]
    simp [List.length_cons]
    ring

theorem runTriangles_indices :
    ∀ (ts : List Triangle) (m : MeshOut),
      (runTriangles ts m).indices =
        m.indices ++ (List.range' (vertexCount m) (3 * ts.length)).map (· % 2 ^ 32) := by
  intro ts
  induction ts with
  | nil => intro m; simp [runTriangles_nil]
  | cons t ts ih =>
    intro m
    rw [runTriangles_cons, ih, triangleCB_indices, triangleCB_vertexCount,
      List.append_assoc]
    have h3 : [vertexCount m % 2 ^ 32, (vertexCount m + 1) % 2 ^ 32,
        (vertexCount m + 2) % 2 ^ 32] = (List.range' (vertexCount m) 3).map (· % 2 ^ 32) := by
      simp [List.range']
    rw [h3, ← List.map_append, List.range'_append_1]
    have harith : 3 * (t :: ts).length = 3 * ts.length + 3 := by
      simp [List.length_cons]; ring
    rw [harith]

theorem runTriangles_indices_init (ts : List Triangle) :
    (runTriangles ts initMesh).indices = (List.range (3 * ts.length)).map (· % 2 ^ 32) := by
  rw [runTriangles_indices, List.range_eq_range']
  simp [initMesh, vertexCount]

/-! ## Helper lemmas: the bounding-box invariant -/

/-- The stored vertices: the flat xyz float list regrouped into triples. -/
def comps3 : List ℚ → List (ℚ × ℚ × ℚ)
  | [] => []
  | [_] => []
  | [_, _] => []
  | x :: y :: z :: r => (x, y, z) :: comps3 r

theorem comps3_append3 :
    ∀ (l : List ℚ), l.length % 3 = 0 →
      ∀ x y z : ℚ, comps3 (l ++ [x, y, z]) = comps3 l ++ [(x, y, z)]
  | [], _, x, y, z => rfl
  | [_], h, _, _, _ => by simp at h
  | [_, _], h, _, _, _ => by simp at h
  | a :: b :: c :: r, h, x, y, z => by
    have hr : r.length % 3 = 0 := by
      simp [List.length_cons] at h
      omega
    rw [List.cons_append, List.cons_append, List.cons_append]
    show (a, b, c) :: comps3 (r ++ [x, y, z]) = (a, b, c) :: (comps3 r ++ [(x, y, z)])
    rw [comps3_append3 r hr x y z]

theorem comps3_ne_nil (l : List ℚ) (h : 3 ≤ l.length) : comps3 l ≠ [] := by
  match l with
  | [] => simp at h
  | [_] => simp at h
  | [_, _] => simp at h
  | a :: b :: c :: r => simp [comps3]

/-- The one-component bounds invariant: every stored value of this
component sits between the running min and max; an empty store leaves the
infinite initialisers untouched; a non-empty store attains both bounds. -/
def BInv (xs : List ℚ) (mn : WithTop ℚ) (mx : WithBot ℚ) : Prop :=
  (∀ q ∈ xs, mn ≤ (q : WithTop ℚ) ∧ (q : WithBot ℚ) ≤ mx) ∧
    (xs = [] → mn = ⊤ ∧ mx = ⊥) ∧
    (xs ≠ [] → (∃ q ∈ xs, mn = (q : WithTop ℚ)) ∧ (∃ q ∈ xs, mx = (q : WithBot ℚ)))

theorem BInv_nil : BInv [] ⊤ ⊥ := by
  refine ⟨?_, ?_, ?_⟩
  · intro q hq; simp at hq
  · intro _; exact ⟨rfl, rfl⟩
  · intro h; exact absurd rfl h

theorem BInv_step {xs : List ℚ} {mn : WithTop ℚ} {mx : WithBot ℚ}
    (h : BInv xs mn mx) (x : ℚ) : BInv (xs ++ [x]) (updMin mn x) (updMax mx x) := by
  obtain ⟨hle, hemp, hat⟩ := h
  refine ⟨?_, ?_, ?_⟩
  · intro q hq
    rcases List.mem_append.mp hq with hq | hq
    · obtain ⟨h1, h2⟩ := hle q hq
      constructor
      · unfold updMin
        split
        · exact le_trans (le_of_lt (by assumption)) h1
        · exact h1
      · unfold updMax
        split
        · exact le_trans h2 (le_of_lt (by assumption))
        · exact h2
    · have hq : q = x := by simpa using hq
      subst hq
      constructor
      · unfold updMin
        split
        · exact le_refl _
        · exact not_lt.mp (by assumption)
      · unfold updMax
        split
        · exact le_refl _
        · exact not_lt.mp (by assumption)
  · intro hnil
    exact absurd hnil (by simp)
  · intro _
    by_cases hxs : xs = []
    · subst hxs
      obtain ⟨hmn, hmx⟩ := hemp rfl
      subst hmn
      subst hmx
      constructor
      · exact ⟨x, by simp, by simp [updMin, WithTop.coe_lt_top]⟩
      · exact ⟨x, by simp, by simp [updMax, WithBot.bot_lt_coe]⟩
    · obtain ⟨⟨q1, hq1, hq1e⟩, ⟨q2, hq2, hq2e⟩⟩ := hat hxs
      constructor
      · unfold updMin
        split
        · exact ⟨x, by simp, rfl⟩
        · exact ⟨q1, by simp [hq1], hq1e⟩
      · unfold updMax
        split
        · exact ⟨x, by simp, rfl⟩
        · exact ⟨q2, by simp [hq2], hq2e⟩

/-- The whole-accumulator invariant: the flat list regroups cleanly and
each of the three components satisfies the one-component invariant. -/
def MInv (m : MeshOut) : Prop :=
  m.positions.length % 3 = 0 ∧
    BInv ((comps3 m.positions).map (fun v => v.1)) m.posMin.1 m.posMax.1 ∧
    BInv ((comps3 m.positions).map (fun v => v.2.1)) m.posMin.2.1 m.posMax.2.1 ∧
    BInv ((comps3 m.positions).map (fun v => v.2.2)) m.posMin.2.2 m.posMax.2.2

theorem MInv_init : MInv initMesh := by
  refine ⟨by simp [initMesh], ?_, ?_, ?_⟩ <;>
    simpa [initMesh, comps3] using BInv_nil

theorem MInv_pushVertex {m : MeshOut} (model : Mat4) (u : SoUnits) (v : Vec3)
    (h : MInv m) : MInv (pushVertex model u m v).1 := by
  obtain ⟨hlen, hx, hy, hz⟩ := h
  have hc : comps3 ((pushVertex model u m v).1.positions) =
      comps3 m.positions ++
        [((worldPoint model u v).x, (worldPoint model u v).y, (worldPoint model u v).z)] := by
    rw [pushVertex_positions, comps3_append3 _ hlen]
  refine ⟨?_, ?_, ?_, ?_⟩
  · rw [pushVertex_positions_length]
    omega
  · rw [hc, List.map_append, pushVertex_posMin]
    exact BInv_step hx _
  · rw [hc, List.map_append, pushVertex_posMin, pushVertex_posMax]
    exact BInv_step hy _
  · rw [hc, List.map_append, pushVertex_posMin, pushVertex_posMax]
    exact BInv_step hz _

theorem MInv_triangleCB {m : MeshOut} (model : Mat4) (u : SoUnits) (v1 v2 v3 : Vec3)
    (h : MInv m) : MInv (triangleCB m model u v1 v2 v3) := by
  have h3 : MInv (pushVertex model u
      (pushVertex model u (pushVertex model u m v1).1 v2).1 v3).1 :=
    MInv_pushVertex model u v3 (MInv_pushVertex model u v2 (MInv_pushVertex model u v1 h))
  obtain ⟨hlen, hx, hy, hz⟩ := h3
  exact ⟨hlen, hx, hy, hz⟩

theorem MInv_run : ∀ (ts : List Triangle) (m : MeshOut), MInv m → MInv (runTriangles ts m) := by
  intro ts
  induction ts with
  | nil => intro m h; simpa [runTriangles_nil] using h
  | cons t ts ih =>
    intro m h
    rw [runTriangles_cons]
    exact ih _ (MInv_triangleCB _ _ _ _ _ h)

/-! ## Helper lemmas: index validity -/

/-- Index validity: every stored index addresses a stored vertex, and the
index buffer length is a multiple of three. -/
def indicesValid (m : MeshOut) : Prop :=
  (∀ i ∈ m.indices, i < vertexCount m) ∧ m.indices.length % 3 = 0

theorem indicesValid_init : indicesValid initMesh := by
  constructor <;> simp [initMesh, vertexCount]

theorem indicesValid_triangleCB {m : MeshOut} (model : Mat4) (u : SoUnits) (v1 v2 v3 : Vec3)
    (h : indicesValid m) : indicesValid (triangleCB m model u v1 v2 v3) := by
  obtain ⟨hlt, hlen⟩ := h
  constructor
  · intro i hi
    rw [triangleCB_indices] at hi
    rw [triangleCB_vertexCount]
    rcases List.mem_append.mp hi with hi | hi
    · exact lt_of_lt_of_le (hlt i hi) (by omega)
    · have hi : i = vertexCount m % 2 ^ 32 ∨ i = (vertexCount m + 1) % 2 ^ 32 ∨
          i = (vertexCount m + 2) % 2 ^ 32 := by simpa using hi
      rcases hi with rfl | rfl | rfl
      · exact lt_of_le_of_lt (Nat.mod_le _ _) (by omega)
      · exact lt_of_le_of_lt (Nat.mod_le _ _) (by omega)
      · exact lt_of_le_of_lt (Nat.mod_le _ _) (by omega)
  · rw [triangleCB_indices]
    simp [List.length_append]
    omega

theorem indicesValid_run :
    ∀ (ts : List Triangle) (m : MeshOut), indicesValid m → indicesValid (runTriangles ts m) := by
  intro ts
  induction ts with
  | nil => intro m h; simpa [runTriangles_nil] using h
  | cons t ts ih =>
    intro m h
    rw [runTriangles_cons]
    exact ih _ (indicesValid_triangleCB _ _ _ _ _ h)

/-! ## The claims' statement vocabulary -/

/-- The flat xyz coordinates of one point, in the push order of the
`pushVertex` lambda. -/
def flatten3 (p : Vec3) : List ℚ :=
  [p.x, p.y, p.z]

/-- Every coordinate of every stored vertex lies within the running
bounding box, component-wise. -/
def boundsBetween (m : MeshOut) : Prop :=
  ∀ v ∈ comps3 m.positions,
    (m.posMin.1 ≤ (v.1 : WithTop ℚ) ∧ (v.1 : WithBot ℚ) ≤ m.posMax.1) ∧
    (m.posMin.2.1 ≤ (v.2.1 : WithTop ℚ) ∧ (v.2.1 : WithBot ℚ) ≤ m.posMax.2.1) ∧
    (m.posMin.2.2 ≤ (v.2.2 : WithTop ℚ) ∧ (v.2.2 : WithBot ℚ) ≤ m.posMax.2.2)

/-- Each bound component is attained by at least one stored vertex. -/
def boundsAttained (m : MeshOut) : Prop :=
  (∃ v ∈ comps3 m.positions, m.posMin.1 = (v.1 : WithTop ℚ)) ∧
  (∃ v ∈ comps3 m.positions, m.posMax.1 = (v.1 : WithBot ℚ)) ∧
  (∃ v ∈ comps3 m.positions, m.posMin.2.1 = (v.2.1 : WithTop ℚ)) ∧
  (∃ v ∈ comps3 m.positions, m.posMax.2.1 = (v.2.1 : WithBot ℚ)) ∧
  (∃ v ∈ comps3 m.positions, m.posMin.2.2 = (v.2.2 : WithTop ℚ)) ∧
  (∃ v ∈ comps3 m.positions, m.posMax.2.2 = (v.2.2 : WithBot ℚ))

theorem MInv_boundsBetween {m : MeshOut} (h : MInv m) : boundsBetween m := by
  obtain ⟨_, hx, hy, hz⟩ := h
  intro v hv
  refine ⟨⟨?_, ?_⟩, ⟨?_, ?_⟩, ⟨?_, ?_⟩⟩
  · exact (hx.1 v.1 (List.mem_map_of_mem _ hv)).1
  · exact (hx.1 v.1 (List.mem_map_of_mem _ hv)).2
  · exact (hy.1 v.2.1 (List.mem_map_of_mem _ hv)).1
  · exact (hy.1 v.2.1 (List.mem_map_of_mem _ hv)).2
  · exact (hz.1 v.2.2 (List.mem_map_of_mem _ hv)).1
  · exact (hz.1 v.2.2 (List.mem_map_of_mem _ hv)).2

theorem MInv_boundsAttained {m : MeshOut} (h : MInv m)
    (hne : comps3 m.positions ≠ []) : boundsAttained m := by
  obtain ⟨_, hx, hy, hz⟩ := h
  have hne' : ∀ f : ℚ × ℚ × ℚ → ℚ, (comps3 m.positions).map f ≠ [] := by
    intro f h0
    exact hne (List.map_eq_nil_iff.mp h0)
  obtain ⟨⟨qx1, hqx1, hqx1e⟩, ⟨qx2, hqx2, hqx2e⟩⟩ := hx.2.2 (hne' _)
  obtain ⟨⟨qy1, hqy1, hqy1e⟩, ⟨qy2, hqy2, hqy2e⟩⟩ := hy.2.2 (hne' _)
  obtain ⟨⟨qz1, hqz1, hqz1e⟩, ⟨qz2, hqz2, hqz2e⟩⟩ := hz.2.2 (hne' _)
  obtain ⟨vx1, hvx1, rfl⟩ := List.mem_map.mp hqx1
  obtain ⟨vx2, hvx2, rfl⟩ := List.mem_map.mp hqx2
  obtain ⟨vy1, hvy1, rfl⟩ := List.mem_map.mp hqy1
  obtain ⟨vy2, hvy2, rfl⟩ := List.mem_map.mp hqy2
  obtain ⟨vz1, hvz1, rfl⟩ := List.mem_map.mp hqz1
  obtain ⟨vz2, hvz2, rfl⟩ := List.mem_map.mp hqz2
  exact ⟨⟨vx1, hvx1, hqx1e⟩, ⟨vx2, hvx2, hqx2e⟩, ⟨vy1, hvy1, hqy1e⟩,
    ⟨vy2, hvy2, hqy2e⟩, ⟨vz1, hvz1, hqz1e⟩, ⟨vz2, hvz2, hqz2e⟩⟩

/-! ## Helper lemmas: buffer regions -/

theorem posRegion_length (m : MeshOut) : (posRegion m).length = m.positions.length * 4 := by
  unfold posRegion
  induction m.positions with
  | nil => simp
  | cons a t ih =>
    simp [List.flatMap_cons, float32Bytes, ih]
    ring

theorem idxRegion_length (m : MeshOut) : (idxRegion m).length = m.indices.length * 4 := by
  unfold idxRegion
  induction m.indices with
  | nil => simp
  | cons a t ih =>
    simp [List.flatMap_cons, uint32Bytes, ih]
    ring

/-- The byte-layout facts claimed of the Container Packer: byte lengths as
computed, one gap-free data region of position bytes then index bytes, two
byte ranges spanning exactly those two sub-regions with the
vertex-attribute and element/index roles. -/
def bufferLayoutOK (m : MeshOut) : Prop :=
  posBytesLen m = 3 * 4 * vertexCount m ∧
  idxBytesLen m = 4 * m.indices.length ∧
  (packGLB m).buffers = [{ data := posRegion m ++ idxRegion m }] ∧
  (posRegion m).length = posBytesLen m ∧
  (idxRegion m).length = idxBytesLen m ∧
  (packGLB m).bufferViews =
    [{ buffer := 0, byteOffset := 0, byteLength := posBytesLen m,
       target := TINYGLTF_TARGET_ARRAY_BUFFER },
     { buffer := 0, byteOffset := posBytesLen m, byteLength := idxBytesLen m,
       target := TINYGLTF_TARGET_ELEMENT_ARRAY_BUFFER }]

/-- The typed-view facts claimed of the Container Packer: a float VEC3
accessor counting `vertexCount` elements whose declared min/max are the
accumulated bounding box corners, and an unsigned-int SCALAR accessor
counting `indexCount` elements. -/
def accessorLayoutOK (m : MeshOut) : Prop :=
  (packGLB m).accessors = [accPos m, accIdx m] ∧
  (accPos m).componentType = TINYGLTF_COMPONENT_TYPE_FLOAT ∧
  (accPos m).accType = TINYGLTF_TYPE_VEC3 ∧
  (accPos m).count = vertexCount m ∧
  (accPos m).minValues = [m.posMin.1, m.posMin.2.1, m.posMin.2.2] ∧
  (accPos m).maxValues = [m.posMax.1, m.posMax.2.1, m.posMax.2.2] ∧
  (accPos m).bufferView = 0 ∧
  (accIdx m).componentType = TINYGLTF_COMPONENT_TYPE_UNSIGNED_INT ∧
  (accIdx m).accType = TINYGLTF_TYPE_SCALAR ∧
  (accIdx m).count = m.indices.length ∧
  (accIdx m).bufferView = 1

/-- The exit-code behaviour of `main` as a function of its environment,
and the success line printed on exit 0. -/
def mainSpec (argc : Nat) (outPath : String) (openOk readOk ioOk : Bool)
    (m : MeshOut) : Prop :=
  ((mainRun argc outPath openOk readOk m ioOk).1 = 2 ↔ argc < 3) ∧
  ((mainRun argc outPath openOk readOk m ioOk).1 = 3 ↔ 3 ≤ argc ∧ openOk = false) ∧
  ((mainRun argc outPath openOk readOk m ioOk).1 = 4 ↔
    3 ≤ argc ∧ openOk = true ∧ readOk = false) ∧
  ((mainRun argc outPath openOk readOk m ioOk).1 = 5 ↔
    3 ≤ argc ∧ openOk = true ∧ readOk = true ∧
      (∃ e, writeGLBDisk m ioOk = Except.error e)) ∧
  ((mainRun argc outPath openOk readOk m ioOk).1 = 0 ↔
    3 ≤ argc ∧ openOk = true ∧ readOk = true ∧
      writeGLBDisk m ioOk = Except.ok (packGLB m)) ∧
  ((mainRun argc outPath openOk readOk m ioOk).1 = 0 →
    (mainRun argc outPath openOk readOk m ioOk).2 = some (successLine outPath m))

/-! ## The claims -/

/-- **C1**: for every triangle passed to the accumulator the three
vertices are processed in order v1, v2, v3; each local point is
transformed by the model matrix, then scaled by the unit-to-meter factor,
then appended as a fresh vertex whose index is the vertex count just
before the append; finally the three new indices are appended to the
index buffer in the same order.  The hypothesis keeps the vertex count in
the range where the `uint32_t` cast of the index is the identity (the
truncation itself is settled with C10). -/
theorem triangle_processed_in_order (m : MeshOut) (model : Mat4) (u : SoUnits)
    (v1 v2 v3 : Vec3) (h : vertexCount m + 3 ≤ 2 ^ 32) :
    (triangleCB m model u v1 v2 v3).positions =
      m.positions ++ flatten3 (worldPoint model u v1) ++ flatten3 (worldPoint model u v2) ++
        flatten3 (worldPoint model u v3) ∧
    (triangleCB m model u v1 v2 v3).indices =
      m.indices ++ [vertexCount m, vertexCount m + 1, vertexCount m + 2] := by
  have hp : (2 : ℕ) ^ 32 = 4294967296 := by norm_num
  rw [hp] at h
  constructor
  · rw [triangleCB_positions]
    simp [flatten3, List.append_assoc]
  · rw [triangleCB_indices, hp]
    have e1 : vertexCount m % 4294967296 = vertexCount m := Nat.mod_eq_of_lt (by omega)
    have e2 : (vertexCount m + 1) % 4294967296 = vertexCount m + 1 := Nat.mod_eq_of_lt (by omega)
    have e3 : (vertexCount m + 2) % 4294967296 = vertexCount m + 2 := Nat.mod_eq_of_lt (by omega)
    rw [e1, e2, e3]

/-- Witness for C1: the spec's scenario triangle fed to the empty
accumulator. -/
theorem triangle_processed_in_order_witness :
    vertexCount initMesh + 3 ≤ 2 ^ 32 ∧
    ((triangleCB initMesh idMat SoUnits.METERS ⟨0, 0, 0⟩ ⟨1, 0, 0⟩ ⟨0, 1, 0⟩).positions =
        initMesh.positions ++ flatten3 (worldPoint idMat SoUnits.METERS ⟨0, 0, 0⟩) ++
          flatten3 (worldPoint idMat SoUnits.METERS ⟨1, 0, 0⟩) ++
          flatten3 (worldPoint idMat SoUnits.METERS ⟨0, 1, 0⟩) ∧
      (triangleCB initMesh idMat SoUnits.METERS ⟨0, 0, 0⟩ ⟨1, 0, 0⟩ ⟨0, 1, 0⟩).indices =
        initMesh.indices ++ [vertexCount initMesh, vertexCount initMesh + 1,
          vertexCount initMesh + 2]) :=
  ⟨by decide,
   triangle_processed_in_order initMesh idMat SoUnits.METERS ⟨0, 0, 0⟩ ⟨1, 0, 0⟩ ⟨0, 1, 0⟩
     (by decide)⟩

/-- **C2**: after any non-empty sequence of triangles fed to the
accumulator, every coordinate of every stored vertex lies within
[min, max] component-wise, and for each component both bounds are
attained by at least one stored vertex. -/
theorem bounds_invariant (ts : List Triangle) (h : ts ≠ []) :
    boundsBetween (runTriangles ts initMesh) ∧ boundsAttained (runTriangles ts initMesh) := by
  have hM := MInv_run ts initMesh MInv_init
  refine ⟨MInv_boundsBetween hM, MInv_boundsAttained hM ?_⟩
  apply comps3_ne_nil
  rw [runTriangles_positions_length]
  have h1 : 1 ≤ ts.length := by
    cases ts with
    | nil => exact absurd rfl h
    | cons a t => simp [List.length_cons]
  simp only [initMesh, List.length_nil]
  omega

/-- Witness for C2: the spec's scenario triangle. -/
theorem bounds_invariant_witness :
    ([demoTri] : List Triangle) ≠ [] ∧
    (boundsBetween (runTriangles [demoTri] initMesh) ∧
      boundsAttained (runTriangles [demoTri] initMesh)) :=
  ⟨by decide, bounds_invariant [demoTri] (by decide)⟩

/-- **C3**: after any sequence of accepted triangles every stored index
is a valid position into the vertex buffer and the index buffer length is
a multiple of 3. -/
theorem index_buffer_always_valid (ts : List Triangle) :
    indicesValid (runTriangles ts initMesh) :=
  indicesValid_run ts initMesh indicesValid_init

/-- **C9**: the unit-to-meter table maps the eight listed units to their
fixed constants and every other unit to 1.0. -/
theorem unit_scale_table_correct :
    unitsScaleToMeters SoUnits.MILLIMETERS = 0.001 ∧
    unitsScaleToMeters SoUnits.CENTIMETERS = 0.01 ∧
    unitsScaleToMeters SoUnits.METERS = 1.0 ∧
    unitsScaleToMeters SoUnits.KILOMETERS = 1000.0 ∧
    unitsScaleToMeters SoUnits.INCHES = 0.0254 ∧
    unitsScaleToMeters SoUnits.FEET = 0.3048 ∧
    unitsScaleToMeters SoUnits.YARDS = 0.9144 ∧
    unitsScaleToMeters SoUnits.MILES = 1609.344 ∧
    ∀ u : SoUnits, u ≠ SoUnits.MILLIMETERS → u ≠ SoUnits.CENTIMETERS →
      u ≠ SoUnits.METERS → u ≠ SoUnits.KILOMETERS → u ≠ SoUnits.INCHES →
      u ≠ SoUnits.FEET → u ≠ SoUnits.YARDS → u ≠ SoUnits.MILES →
      unitsScaleToMeters u = 1.0 := by
  refine ⟨rfl, rfl, rfl, rfl, rfl, rfl, rfl, rfl, ?_⟩
  intro u h1 h2 h3 h4 h5 h6 h7 h8
  cases u <;> first | rfl | simp_all

theorem writeGLB_of_empty {m : MeshOut} (h : m.positions = [] ∨ m.indices = []) :
    writeGLB m = Except.error errNoTriangles := by
  unfold writeGLB
  rcases h with h | h <;> simp [h]

theorem writeGLB_of_nonempty {m : MeshOut} (h1 : m.positions ≠ []) (h2 : m.indices ≠ []) :
    writeGLB m = Except.ok (packGLB m) := by
  unfold writeGLB
  simp [h1, h2]

/-- **C4**: packing fails exactly when the accumulator reported failure —
one of the two buffers is empty — and the emptiness check is the only
validation before packing: every non-empty mesh packs to the full
document.  On empty input the failure is the fixed error, independent of
the external write outcome, so no output document (hence no file) is ever
produced. -/
theorem pack_fails_iff_empty (m : MeshOut) :
    ((∃ e, writeGLB m = Except.error e) ↔ (m.positions = [] ∨ m.indices = [])) ∧
    (writeGLB m = Except.ok (packGLB m) ↔ ¬(m.positions = [] ∨ m.indices = [])) ∧
    ((∀ ioOk : Bool, writeGLBDisk m ioOk = Except.error errNoTriangles) ↔
      (m.positions = [] ∨ m.indices = [])) := by
  by_cases hp : m.positions = []
  · refine ⟨⟨fun _ => Or.inl hp, fun h => ⟨errNoTriangles, writeGLB_of_empty h⟩⟩, ?_, ?_⟩
    · rw [writeGLB_of_empty (Or.inl hp)]
      simp [hp]
    · refine ⟨fun _ => Or.inl hp, fun h ioOk => ?_⟩
      unfold writeGLBDisk
      rw [writeGLB_of_empty h]
  · by_cases hi : m.indices = []
    · refine ⟨⟨fun _ => Or.inr hi, fun h => ⟨errNoTriangles, writeGLB_of_empty h⟩⟩, ?_, ?_⟩
      · rw [writeGLB_of_empty (Or.inr hi)]
        simp [hi]
      · refine ⟨fun _ => Or.inr hi, fun h ioOk => ?_⟩
        unfold writeGLBDisk
        rw [writeGLB_of_empty h]
    · refine ⟨⟨?_, fun h => absurd h (by simp [hp, hi])⟩, ?_, ?_⟩
      · rintro ⟨e, he⟩
        rw [writeGLB_of_nonempty hp hi] at he
        exact absurd he (by simp)
      · rw [writeGLB_of_nonempty hp hi]
        simp [hp, hi]
      · constructor
        · intro hall
          have := hall true
          unfold writeGLBDisk at this
          rw [writeGLB_of_nonempty hp hi] at this
          exact absurd this (by simp)
        · intro h
          exact absurd h (by simp [hp, hi])

/-- **C5**: the position accessor is a float VEC3 view counting
`vertexCount` elements whose declared min/max equal the accumulated
bounding box corners exactly; the index accessor is an unsigned-32-bit
SCALAR view counting `indexCount` elements. -/
theorem accessor_views_correct (m : MeshOut) : accessorLayoutOK m :=
  ⟨rfl, rfl, rfl, rfl, rfl, rfl, rfl, rfl, rfl, rfl, rfl⟩

/-- **C6**: the packer computes `posBytes = 3 * 4 * vertexCount` and
`idxBytes = 4 * indexCount`, lays the position bytes and then the index
bytes out in one gap-free region, and describes the two byte ranges with
exactly those offsets, lengths and roles.  The hypothesis — the flat
float list regroups into whole vertices — holds for every mesh the
accumulator produces. -/
theorem buffer_layout_correct (m : MeshOut) (h : m.positions.length % 3 = 0) :
    bufferLayoutOK m := by
  refine ⟨?_, ?_, rfl, ?_, ?_, rfl⟩
  · unfold posBytesLen vertexCount
    omega
  · unfold idxBytesLen
    ring
  · exact posRegion_length m
  · exact idxRegion_length m

/-- Witness for C6: the mesh accumulated from the scenario triangle. -/
theorem buffer_layout_correct_witness :
    (runTriangles [demoTri] initMesh).positions.length % 3 = 0 ∧
    bufferLayoutOK (runTriangles [demoTri] initMesh) :=
  ⟨by decide, buffer_layout_correct (runTriangles [demoTri] initMesh) (by decide)⟩

/-- **C8**: no silent welding — every accepted triangle grows the vertex
buffer by exactly 3 entries regardless of its geometry, and two triangles
sharing the corner `c` store the world image of `c` twice, as two
separate vertex entries. -/
theorem no_vertex_welding (m : MeshOut) (model : Mat4) (u : SoUnits) (a b c d e : Vec3) :
    (∀ v1 v2 v3 : Vec3, vertexCount (triangleCB m model u v1 v2 v3) = vertexCount m + 3) ∧
    (triangleCB (triangleCB m model u a b c) model u c d e).positions =
      m.positions ++ flatten3 (worldPoint model u a) ++ flatten3 (worldPoint model u b) ++
        flatten3 (worldPoint model u c) ++ flatten3 (worldPoint model u c) ++
        flatten3 (worldPoint model u d) ++ flatten3 (worldPoint model u e) ∧
    vertexCount (triangleCB (triangleCB m model u a b c) model u c d e) =
      vertexCount m + 6 := by
  refine ⟨fun v1 v2 v3 => triangleCB_vertexCount m model u v1 v2 v3, ?_, ?_⟩
  · rw [triangleCB_positions, triangleCB_positions]
    simp [flatten3, List.append_assoc]
  · rw [triangleCB_vertexCount, triangleCB_vertexCount]

theorem writeGLBDisk_ok_inv {m : MeshOut} {ioOk : Bool} {doc : GlbModel}
    (h : writeGLBDisk m ioOk = Except.ok doc) : doc = packGLB m := by
  unfold writeGLBDisk writeGLB at h
  by_cases hc : (m.positions.isEmpty || m.indices.isEmpty) = true
  · rw [if_pos hc] at h
    simp at h
  · rw [if_neg hc] at h
    cases ioOk with
    | false => simp at h
    | true => simpa using h.symm

/-- **C7** counterexample: with three user arguments (`argc = 4`) — a
wrong argument count by the claim's reading — and every external step
succeeding on a one-triangle mesh, the program exits 0, not 2: extra
arguments are silently ignored, since `main` only checks `argc < 3`. -/
theorem exit_code_extra_args_counterexample :
    (mainRun 4 "out.glb" true true (runTriangles [demoTri] initMesh) true).1 = 0 := by
  decide

/-- **C7** (amended): exit code 2 exactly when fewer than two user
arguments are supplied (`argc < 3`; extra arguments are ignored), 3 on
input open failure, 4 on scene read failure, 5 on packing/serialization
failure, 0 on success — in which case the success line reporting the
output path and the triangle count is printed. -/
theorem exit_codes_characterised (argc : Nat) (outPath : String)
    (openOk readOk ioOk : Bool) (m : MeshOut) :
    mainSpec argc outPath openOk readOk ioOk m := by
  unfold mainSpec
  by_cases ha : argc < 3
  · simp [mainRun, ha]
  · cases openOk with
    | false => simp [mainRun, ha]; omega
    | true =>
      cases readOk with
      | false => simp [mainRun, ha]; omega
      | true =>
        rcases hw : writeGLBDisk m ioOk with e | doc
        · simp [mainRun, ha, hw]; omega
        · have hdoc : doc = packGLB m := writeGLBDisk_ok_inv hw
          subst hdoc
          simp [mainRun, ha, hw]; omega

/-- **C10** counterexample: fed `2 ^ 32` triangles, the index buffer is
not the plain sequence `0, 1, ..., 3T-1`: its entry number `2 ^ 32` is
`2 ^ 32 % 2 ^ 32 = 0`, not `2 ^ 32` — the `uint32_t` cast wraps. -/
theorem index_sequence_counterexample :
    (runTriangles (List.replicate (2 ^ 32) demoTri) initMesh).indices ≠
      List.range (3 * 2 ^ 32) := by
  rw [runTriangles_indices_init, List.length_replicate]
  intro h
  have hp : (2 : ℕ) ^ 32 = 4294967296 := by norm_num
  have hlt : (2 ^ 32 : Nat) < 3 * 2 ^ 32 := by rw [hp]; omega
  have h1 := congrArg (fun l => l[(2 ^ 32 : Nat)]?) h
  simp only [List.getElem?_map] at h1
  rw [List.getElem?_range hlt] at h1
  simp only [Option.map_some'] at h1
  rw [Nat.mod_self] at h1
  have h2 : (0 : ℕ) = 2 ^ 32 := Option.some.inj h1
  rw [hp] at h2
  omega

/-- **C10** (amended): each stored index is the vertex count at push
time reduced modulo `2 ^ 32` (the `static_cast<uint32_t>` truncation), so
after `T` accepted triangles the index buffer is the sequence
`0, 1, ..., 3T-1` each reduced modulo `2 ^ 32` — equal to the plain
sequence exactly as long as `3T ≤ 2 ^ 32`.  (Validity `idx < vertexCount`
is not endangered by the wrap, which only shrinks values; see C3.) -/
theorem index_values_truncated (ts : List Triangle) :
    (∀ (m : MeshOut) (model : Mat4) (u : SoUnits) (v1 v2 v3 : Vec3),
      (triangleCB m model u v1 v2 v3).indices =
        m.indices ++ [vertexCount m % 2 ^ 32, (vertexCount m + 1) % 2 ^ 32,
          (vertexCount m + 2) % 2 ^ 32]) ∧
    (runTriangles ts initMesh).indices = (List.range (3 * ts.length)).map (· % 2 ^ 32) ∧
    (3 * ts.length ≤ 2 ^ 32 →
      (runTriangles ts initMesh).indices = List.range (3 * ts.length)) := by
  refine ⟨triangleCB_indices, runTriangles_indices_init ts, ?_⟩
  intro hle
  rw [runTriangles_indices_init ts]
  have hid : ∀ i ∈ List.range (3 * ts.length), i % 2 ^ 32 = i := by
    intro i hi
    exact Nat.mod_eq_of_lt (lt_of_lt_of_le (List.mem_range.mp hi) hle)
  calc (List.range (3 * ts.length)).map (· % 2 ^ 32)
      = (List.range (3 * ts.length)).map id := List.map_congr_left hid
    _ = List.range (3 * ts.length) := List.map_id _
